import Mathlib

/-!
Shallow embedding of the ddp005-midi-drum real-time performance engine
(src/utils/audio.ts, src/components/DrumKit.tsx, src/components/Sequencer.tsx)
and proofs of the specification claims about it.

Times and velocities are modelled as rationals (JS numbers used here stay in
exact decimal/rational arithmetic: they are added, divided by 127 or 1000, and
compared, never rounded).
-/

namespace DrumMidi

/-- The closed `InstrumentType` union from src/utils/audio.ts. -/
inductive InstrumentType where
  | kick
  | kick_808
  | snare
  | snare_808
  | rimshot
  | hihat_closed
  | hihat_open
  | tom
  | crash
  | splash
  | china
  | ride
  | cowbell
  | clap
  | shaker
  | tambourine
  | conga_high
  | conga_low
  | custom
deriving DecidableEq

/-- `SoundMapping` from DrumKit.tsx: instrument, semitone pitch offset, and
optional per-pad volume (0-1) and pan (-1..1). -/
structure SoundMapping where
  instrument : InstrumentType
  pitch : Int
  volume : Option ℚ
  pan : Option ℚ
deriving DecidableEq

/-- The mapping table `Record<number, SoundMapping>`, keyed by MIDI note. -/
abbrev Mappings := Nat → Option SoundMapping

/-- `updateMapping` from DrumKit.tsx: functional update
`{...prev, [note]: { ...prev[note], instrument, pitch }}` - the JS spread of a
possibly-undefined `prev[note]` keeps its `volume`/`pan` fields when present
and leaves them undefined otherwise. -/
def updateMapping (m : Mappings) (note : Nat) (instr : InstrumentType) (pitch : Int) :
    Mappings :=
  fun n =>
    if n = note then
      some ⟨instr, pitch, (m note).bind SoundMapping.volume, (m note).bind SoundMapping.pan⟩
    else m n

/-- Velocity normalization at the top of `triggerSound` (audio.ts):
`velocity > 1 ? Math.min(Math.max(velocity / 127, 0.1), 1) : velocity`. -/
def normVel (v : ℚ) : ℚ :=
  if 1 < v then min (max (v / 127) (1 / 10)) 1 else v

/-- Keys of the module-level `panners` record in audio.ts (one panner per
instrument family, created by `toFX` during `initAudio`). -/
inductive PannerKey where
  | tom
  | crash
  | splash
  | china
  | ride
  | cowbell
  | shaker
  | conga
deriving DecidableEq

/-- `updatePan` from audio.ts: `if (panners[name]) panners[name].pan.value = value`.
The value is assigned as given; nothing in this function clamps it, and a name
with no panner is silently ignored. -/
def updatePan (ps : PannerKey → Option ℚ) (name : PannerKey) (value : ℚ) :
    PannerKey → Option ℚ :=
  match ps name with
  | some _ => fun k => if k = name then some value else ps k
  | none => ps

/-- A fully-populated panner table, as it exists after `initAudio` (all eight
family panners are created with pan 0). -/
def pannersInit : PannerKey → Option ℚ := fun _ => some 0

/- ------------------------------------------------------------------ -/
/- C4: velocity normalization                                          -/
/- ------------------------------------------------------------------ -/

/-- C4: every velocity passed to the trigger entry point with value > 1 is
divided by 127 and clamped to [0.1, 1]; for any nonnegative velocity (a 0-1
float or a 0-127 integer) the normalized velocity used for gain lies in [0, 1],
and 0-1 floats pass through unchanged. -/
theorem normVel_normalizes (v : ℚ) (h : 0 ≤ v) :
    (1 < v → normVel v = min (max (v / 127) (1 / 10)) 1) ∧
    (v ≤ 1 → normVel v = v) ∧
    0 ≤ normVel v ∧ normVel v ≤ 1 := by
  unfold normVel
  rcases lt_or_le 1 v with hv | hv
  · rw [if_pos hv]
    refine ⟨fun _ => rfl, fun hle => absurd hv (not_lt.mpr hle), ?_, min_le_right _ _⟩
    have h1 : (0:ℚ) ≤ max (v / 127) (1 / 10) := le_max_of_le_right (by norm_num)
    exact le_min h1 (by norm_num)
  · rw [if_neg (not_lt.mpr hv)]
    exact ⟨fun hlt => absurd hlt (not_lt.mpr hv), fun _ => rfl, h, hv⟩

/-- Witness for C4 at the concrete velocity 100 (a 0-127 integer). -/
theorem normVel_normalizes_witness :
    ((1 < (100:ℚ) → normVel 100 = min (max ((100:ℚ) / 127) (1 / 10)) 1) ∧
      ((100:ℚ) ≤ 1 → normVel 100 = 100) ∧
      0 ≤ normVel 100 ∧ normVel 100 ≤ 1) ∧
    normVel 100 = 100 / 127 :=
  ⟨normVel_normalizes 100 (by norm_num), by norm_num [normVel]⟩

/- ------------------------------------------------------------------ -/
/- C9: pan updates                                                     -/
/- ------------------------------------------------------------------ -/

/-- C9 counterexample: an out-of-range pan value is NOT clamped into [-1, 1]:
`updatePan` on the post-init panner table stores the raw value 2 for the tom
panner, and 2 lies outside the documented range. -/
theorem updatePan_no_clamp_counterexample :
    updatePan pannersInit PannerKey.tom 2 PannerKey.tom = some 2 ∧ ¬ ((2:ℚ) ≤ 1) := by
  constructor
  · rfl
  · norm_num

/-- C9 amended: a per-voice pan update is never rejected - the call is total
and does not refuse the value - but the value is stored verbatim, without
clamping: if the named panner exists its pan becomes exactly the given value,
if it does not exist the call is a no-op, and other panners are untouched. -/
theorem updatePan_total (ps : PannerKey → Option ℚ) (name : PannerKey) (v : ℚ) :
    ((ps name).isSome → updatePan ps name v name = some v) ∧
    (ps name = none → updatePan ps name v = ps) ∧
    (∀ k, k ≠ name → updatePan ps name v k = ps k) := by
  refine ⟨fun hs => ?_, fun hn => ?_, fun k hk => ?_⟩
  · rcases hps : ps name with _ | q
    · rw [hps] at hs; simp at hs
    · simp [updatePan, hps]
  · simp [updatePan, hn]
  · rcases hps : ps name with _ | q
    · simp [updatePan, hps]
    · simp [updatePan, hps, hk]

/-- Witness for C9 amended, at the concrete panner table after init: setting
crash pan to 2 stores 2 and leaves the tom panner unchanged. -/
theorem updatePan_total_witness :
    updatePan pannersInit PannerKey.crash 2 PannerKey.crash = some 2 ∧
    updatePan pannersInit PannerKey.crash 2 PannerKey.tom = pannersInit PannerKey.tom :=
  ⟨(updatePan_total pannersInit PannerKey.crash 2).1 (by simp [pannersInit]),
   (updatePan_total pannersInit PannerKey.crash 2).2.2 PannerKey.tom (by decide)⟩

/- ------------------------------------------------------------------ -/
/- C10: updateMapping frame property                                   -/
/- ------------------------------------------------------------------ -/

/-- C10: `updateMapping note instrument pitch` rewrites only the instrument and
pitch fields of the mapping for `note` - its existing volume and pan fields are
preserved (and stay absent when the note was unmapped) - and the mapping of
every other note is unchanged. -/
theorem updateMapping_frame (m : Mappings) (note : Nat) (instr : InstrumentType)
    (pitch : Int) :
    (∀ old, m note = some old →
      updateMapping m note instr pitch note = some ⟨instr, pitch, old.volume, old.pan⟩) ∧
    (m note = none →
      updateMapping m note instr pitch note = some ⟨instr, pitch, none, none⟩) ∧
    (∀ n, n ≠ note → updateMapping m note instr pitch n = m n) := by
  refine ⟨fun old hold => ?_, fun hnone => ?_, fun n hn => ?_⟩
  · unfold updateMapping
    simp [hold]
  · unfold updateMapping
    simp [hnone]
  · unfold updateMapping
    simp [hn]

/-- A concrete mapping table: note 36 mapped to tom with volume 1/2. -/
def mapsEx : Mappings :=
  fun n => if n = 36 then some ⟨InstrumentType.tom, 0, some (1 / 2), none⟩ else none

/-- Witness for C10 at a concrete table: remapping note 36 to snare at +2 keeps
its volume 1/2 and pan, and note 38 stays unmapped. -/
theorem updateMapping_frame_witness :
    updateMapping mapsEx 36 InstrumentType.snare 2 36 =
      some ⟨InstrumentType.snare, 2, some (1 / 2), none⟩ ∧
    updateMapping mapsEx 36 InstrumentType.snare 2 38 = mapsEx 38 :=
  ⟨(updateMapping_frame mapsEx 36 InstrumentType.snare 2).1
      ⟨InstrumentType.tom, 0, some (1 / 2), none⟩ (by simp [mapsEx]),
   (updateMapping_frame mapsEx 36 InstrumentType.snare 2).2.2 38 (by decide)⟩

/- ------------------------------------------------------------------ -/
/- Association-list model of the JS `Map`s used by the code            -/
/- ------------------------------------------------------------------ -/

/-- `Map.get` on an association list keyed by integers. -/
def lookupKey {β : Type} (k : Nat) : List (Nat × β) → Option β
  | [] => none
  | p :: ps => if p.1 = k then some p.2 else lookupKey k ps

/-- `Map.delete` on an association list keyed by integers. -/
def removeKey {β : Type} (k : Nat) (l : List (Nat × β)) : List (Nat × β) :=
  l.filter (fun p => p.1 ≠ k)

theorem mem_removeKey {β : Type} (k : Nat) (l : List (Nat × β)) (p : Nat × β) :
    p ∈ removeKey k l ↔ p ∈ l ∧ p.1 ≠ k := by
  simp [removeKey, List.mem_filter]

theorem lookupKey_eq_none_iff {β : Type} (k : Nat) (l : List (Nat × β)) :
    lookupKey k l = none ↔ ∀ p ∈ l, p.1 ≠ k := by
  induction l with
  | nil => simp [lookupKey]
  | cons q qs ih =>
    by_cases hq : q.1 = k
    · simp [lookupKey, hq]
    · simp [lookupKey, hq, ih]

theorem lookupKey_removeKey_self {β : Type} (k : Nat) (l : List (Nat × β)) :
    lookupKey k (removeKey k l) = none := by
  rw [lookupKey_eq_none_iff]
  intro p hp
  exact ((mem_removeKey k l p).mp hp).2

theorem removeKey_map_fst_sublist {β : Type} (k : Nat) (l : List (Nat × β)) :
    ((removeKey k l).map Prod.fst).Sublist (l.map Prod.fst) :=
  (List.filter_sublist l).map Prod.fst

theorem lookupKey_cons_self {β : Type} (k : Nat) (b : β) (l : List (Nat × β)) :
    lookupKey k ((k, b) :: l) = some b := by
  simp [lookupKey]

theorem mem_lookupKey {β : Type} (k : Nat) (l : List (Nat × β)) (b : β)
    (h : lookupKey k l = some b) : (k, b) ∈ l := by
  induction l with
  | nil => simp [lookupKey] at h
  | cons q qs ih =>
    by_cases hq : q.1 = k
    · rw [lookupKey, if_pos hq] at h
      have hb : q.2 = b := by injection h
      have hqe : q = (k, b) := by
        obtain ⟨q1, q2⟩ := q
        simp only at hq hb
        rw [hq, hb]
      rw [← hqe]
      exact List.mem_cons_self q qs
    · rw [lookupKey, if_neg hq] at h
      exact List.mem_cons_of_mem _ (ih h)

/- ------------------------------------------------------------------ -/
/- C5: sample/pattern registry and loadUserSample                      -/
/- ------------------------------------------------------------------ -/

/-- A custom sample player (`Tone.Player`): its allocation token, used to
track identity and disposal, and its `loaded` flag. -/
structure Player where
  token : Nat
  loaded : Bool
deriving DecidableEq

/-- One note of an imported MIDI pattern: onset relative to the trigger time
(seconds), duration, note velocity (0-1), and pitch as a semitone number
(standing for the note name). -/
structure PatternNote where
  offset : ℚ
  dur : ℚ
  noteVel : ℚ
  pitchName : Int
deriving DecidableEq

/-- The custom sample/pattern registry of audio.ts: the `customPlayers` and
`customMidi` maps, plus bookkeeping of which player tokens have been disposed
and a fresh-token counter for newly constructed players. -/
structure Registry where
  players : List (Nat × Player)
  midis : List (Nat × List PatternNote)
  disposed : List Nat
  nextToken : Nat
deriving DecidableEq

/-- The registry before any `loadUserSample` call. -/
def Registry.empty : Registry := ⟨[], [], [], 0⟩

/-- Classification of a `loadUserSample` source by filename extension and by
the outcome of the asynchronous fetch/decode: an Omnisphere patch (metadata
only, never audible), a MIDI file carrying its parsed pattern when the
fetch/parse succeeds, or an audio file whose load succeeds or fails. -/
inductive SampleSource where
  | omnisphere
  | midiFile (ok : Bool) (pat : List PatternNote)
  | audioFile (ok : Bool)
deriving DecidableEq

/-- The first phase of `loadUserSample` (audio.ts): dispose and delete any
existing player for the key, and delete any existing pattern. -/
def disposeExisting (st : Registry) (noteId : Nat) : Registry :=
  ⟨removeKey noteId st.players, removeKey noteId st.midis,
    (match lookupKey noteId st.players with
     | some pl => pl.token :: st.disposed
     | none => st.disposed),
    st.nextToken⟩

/-- `loadUserSample` from audio.ts: first disposes and deletes any existing
player for the key and deletes any existing pattern, then stores the new
content according to the source kind. `new Tone.Player()` allocates a fresh
player before the load attempt; when the load fails that player is neither
stored nor disposed (the token is consumed but unreachable), and the key is
left without an entry. -/
def loadUserSample (st : Registry) (noteId : Nat) (src : SampleSource) : Registry :=
  let st1 := disposeExisting st noteId
  match src with
  | SampleSource.omnisphere => st1
  | SampleSource.midiFile ok pat =>
      if ok then ⟨st1.players, (noteId, pat) :: st1.midis, st1.disposed, st1.nextToken⟩
      else st1
  | SampleSource.audioFile ok =>
      if ok then
        ⟨(noteId, ⟨st1.nextToken, true⟩) :: st1.players, st1.midis, st1.disposed,
          st1.nextToken + 1⟩
      else ⟨st1.players, st1.midis, st1.disposed, st1.nextToken + 1⟩

/-- Number of registry entries (audio player or parsed pattern) stored for a
pad id. -/
def entriesFor (st : Registry) (noteId : Nat) : Nat :=
  st.players.countP (fun p => decide (p.1 = noteId)) +
    st.midis.countP (fun p => decide (p.1 = noteId))

/-- Number of live (stored and not disposed) audio players for a pad id. -/
def livePlayersFor (st : Registry) (noteId : Nat) : Nat :=
  st.players.countP (fun p => decide (p.1 = noteId ∧ p.2.token ∉ st.disposed))

/-- Registry well-formedness: at most one player and one pattern per key (they
are JS `Map`s), and every stored or disposed token is below the counter. -/
structure RegistryWF (st : Registry) : Prop where
  playersNodup : (st.players.map Prod.fst).Nodup
  midisNodup : (st.midis.map Prod.fst).Nodup
  tokensFresh : ∀ p ∈ st.players, p.2.token < st.nextToken
  disposedFresh : ∀ t ∈ st.disposed, t < st.nextToken

theorem countP_removeKey_key {β : Type} (k : Nat) (l : List (Nat × β))
    (f : Nat × β → Bool) (hf : ∀ p, f p = true → p.1 = k) :
    (removeKey k l).countP f = 0 := by
  rw [List.countP_eq_zero]
  intro p hp
  intro hfp
  exact ((mem_removeKey k l p).mp hp).2 (hf p hfp)

theorem not_mem_map_fst_removeKey {β : Type} (k : Nat) (l : List (Nat × β)) :
    k ∉ (removeKey k l).map Prod.fst := by
  intro hk
  obtain ⟨p, hp, hpk⟩ := List.mem_map.mp hk
  exact ((mem_removeKey k l p).mp hp).2 hpk

/- Branch-by-branch equations for `loadUserSample`. -/

theorem loadUserSample_omn (st : Registry) (noteId : Nat) :
    loadUserSample st noteId SampleSource.omnisphere = disposeExisting st noteId := rfl

theorem loadUserSample_midi_true (st : Registry) (noteId : Nat) (pat : List PatternNote) :
    loadUserSample st noteId (SampleSource.midiFile true pat) =
      ⟨(disposeExisting st noteId).players, (noteId, pat) :: (disposeExisting st noteId).midis,
        (disposeExisting st noteId).disposed, (disposeExisting st noteId).nextToken⟩ := rfl

theorem loadUserSample_midi_false (st : Registry) (noteId : Nat) (pat : List PatternNote) :
    loadUserSample st noteId (SampleSource.midiFile false pat) = disposeExisting st noteId := rfl

theorem loadUserSample_audio_true (st : Registry) (noteId : Nat) :
    loadUserSample st noteId (SampleSource.audioFile true) =
      ⟨(noteId, ⟨st.nextToken, true⟩) :: (disposeExisting st noteId).players,
        (disposeExisting st noteId).midis, (disposeExisting st noteId).disposed,
        st.nextToken + 1⟩ := rfl

theorem loadUserSample_audio_false (st : Registry) (noteId : Nat) :
    loadUserSample st noteId (SampleSource.audioFile false) =
      ⟨(disposeExisting st noteId).players, (disposeExisting st noteId).midis,
        (disposeExisting st noteId).disposed, st.nextToken + 1⟩ := rfl

theorem disposeExisting_disposed_lt (st : Registry) (noteId : Nat) (hw : RegistryWF st) :
    ∀ t ∈ (disposeExisting st noteId).disposed, t < st.nextToken := by
  intro t ht
  simp only [disposeExisting] at ht
  rcases hlk : lookupKey noteId st.players with _ | pl
  · rw [hlk] at ht
    exact hw.disposedFresh t ht
  · rw [hlk] at ht
    rcases List.mem_cons.mp ht with h1 | h2
    · rw [h1]
      exact hw.tokensFresh _ (mem_lookupKey _ _ _ hlk)
    · exact hw.disposedFresh t h2

theorem disposeExisting_wf (st : Registry) (noteId : Nat) (hw : RegistryWF st) :
    RegistryWF (disposeExisting st noteId) := by
  refine ⟨?_, ?_, ?_, ?_⟩
  · exact List.Nodup.sublist (removeKey_map_fst_sublist noteId st.players) hw.playersNodup
  · exact List.Nodup.sublist (removeKey_map_fst_sublist noteId st.midis) hw.midisNodup
  · intro p hp
    exact hw.tokensFresh p ((mem_removeKey _ _ _).mp hp).1
  · exact disposeExisting_disposed_lt st noteId hw

theorem registryWF_insertMidi (st : Registry) (noteId : Nat) (pat : List PatternNote)
    (hw : RegistryWF st) (hnm : noteId ∉ st.midis.map Prod.fst) :
    RegistryWF ⟨st.players, (noteId, pat) :: st.midis, st.disposed, st.nextToken⟩ := by
  refine ⟨hw.playersNodup, ?_, hw.tokensFresh, hw.disposedFresh⟩
  simp only [List.map_cons]
  exact List.nodup_cons.mpr ⟨hnm, hw.midisNodup⟩

theorem registryWF_insertPlayer (st : Registry) (noteId : Nat)
    (hw : RegistryWF st) (hnp : noteId ∉ st.players.map Prod.fst) :
    RegistryWF ⟨(noteId, ⟨st.nextToken, true⟩) :: st.players, st.midis, st.disposed,
      st.nextToken + 1⟩ := by
  refine ⟨?_, hw.midisNodup, ?_, ?_⟩
  · simp only [List.map_cons]
    exact List.nodup_cons.mpr ⟨hnp, hw.playersNodup⟩
  · intro p hp
    rcases List.mem_cons.mp hp with h1 | h2
    · rw [h1]
      exact Nat.lt_succ_self _
    · exact Nat.lt_succ_of_lt (hw.tokensFresh p h2)
  · intro t ht
    exact Nat.lt_succ_of_lt (hw.disposedFresh t ht)

theorem registryWF_bump (st : Registry) (hw : RegistryWF st) :
    RegistryWF ⟨st.players, st.midis, st.disposed, st.nextToken + 1⟩ := by
  refine ⟨hw.playersNodup, hw.midisNodup, ?_, ?_⟩
  · intro p hp
    exact Nat.lt_succ_of_lt (hw.tokensFresh p hp)
  · intro t ht
    exact Nat.lt_succ_of_lt (hw.disposedFresh t ht)

theorem loadUserSample_wf (st : Registry) (noteId : Nat) (src : SampleSource)
    (hw : RegistryWF st) : RegistryWF (loadUserSample st noteId src) := by
  have h1 := disposeExisting_wf st noteId hw
  rcases src with _ | ⟨ok, pat⟩ | ⟨ok⟩
  · exact h1
  · cases ok
    · rw [loadUserSample_midi_false]
      exact h1
    · rw [loadUserSample_midi_true]
      exact registryWF_insertMidi _ noteId pat h1 (not_mem_map_fst_removeKey noteId st.midis)
  · cases ok
    · rw [loadUserSample_audio_false]
      exact registryWF_bump _ h1
    · rw [loadUserSample_audio_true]
      exact registryWF_insertPlayer _ noteId h1 (not_mem_map_fst_removeKey noteId st.players)

/-- Both audio loads in succession: the second disposes the first's player and
leaves exactly one live player for the pad. -/
theorem loadUserSample_double_audio (st : Registry) (noteId : Nat) (hw : RegistryWF st) :
    livePlayersFor
        (loadUserSample (loadUserSample st noteId (SampleSource.audioFile true)) noteId
          (SampleSource.audioFile true)) noteId = 1 ∧
    st.nextToken ∈
      (loadUserSample (loadUserSample st noteId (SampleSource.audioFile true)) noteId
        (SampleSource.audioFile true)).disposed := by
  have hlt := disposeExisting_disposed_lt st noteId hw
  have hA : loadUserSample st noteId (SampleSource.audioFile true) =
      ⟨(noteId, ⟨st.nextToken, true⟩) :: (disposeExisting st noteId).players,
        (disposeExisting st noteId).midis, (disposeExisting st noteId).disposed,
        st.nextToken + 1⟩ := rfl
  have hB : loadUserSample (loadUserSample st noteId (SampleSource.audioFile true)) noteId
      (SampleSource.audioFile true) =
      ⟨(noteId, ⟨st.nextToken + 1, true⟩) ::
          removeKey noteId
            ((noteId, ⟨st.nextToken, true⟩) :: (disposeExisting st noteId).players),
        removeKey noteId (disposeExisting st noteId).midis,
        st.nextToken :: (disposeExisting st noteId).disposed,
        st.nextToken + 1 + 1⟩ := by
    rw [hA, loadUserSample_audio_true]
    simp only [disposeExisting, lookupKey_cons_self]
  constructor
  · rw [hB]
    unfold livePlayersFor
    simp only
    rw [List.countP_cons,
        countP_removeKey_key _ _ _ (fun p hp => (of_decide_eq_true hp).1)]
    have hne : st.nextToken + 1 ∉ st.nextToken :: (disposeExisting st noteId).disposed := by
      intro hmem
      rcases List.mem_cons.mp hmem with h1 | h2
      · omega
      · have := hlt _ h2
        omega
    simp [hne]
  · rw [hB]
    exact List.mem_cons_self _ _

/-- C5: after `loadUserSample(padId, source)` completes, at most one registry
entry (audio player or parsed pattern) exists for that pad id, any previously
stored audio player for it has been disposed, registry well-formedness is
preserved, and loading two audio assets in a row for pad `padId` leaves
exactly one live player for it (the first asset's player is disposed). -/
theorem loadUserSample_replaces (st : Registry) (noteId : Nat) (src : SampleSource)
    (hw : RegistryWF st) :
    entriesFor (loadUserSample st noteId src) noteId ≤ 1 ∧
    (∀ pl, lookupKey noteId st.players = some pl →
      pl.token ∈ (loadUserSample st noteId src).disposed) ∧
    RegistryWF (loadUserSample st noteId src) ∧
    livePlayersFor
        (loadUserSample (loadUserSample st noteId (SampleSource.audioFile true)) noteId
          (SampleSource.audioFile true)) noteId = 1 ∧
    st.nextToken ∈
      (loadUserSample (loadUserSample st noteId (SampleSource.audioFile true)) noteId
        (SampleSource.audioFile true)).disposed := by
  have hp0 : (removeKey noteId st.players).countP (fun p => decide (p.1 = noteId)) = 0 :=
    countP_removeKey_key _ _ _ (fun p hp => of_decide_eq_true hp)
  have hm0 : (removeKey noteId st.midis).countP (fun p => decide (p.1 = noteId)) = 0 :=
    countP_removeKey_key _ _ _ (fun p hp => of_decide_eq_true hp)
  refine ⟨?_, ?_, loadUserSample_wf st noteId src hw,
    (loadUserSample_double_audio st noteId hw).1,
    (loadUserSample_double_audio st noteId hw).2⟩
  · rcases src with _ | ⟨ok, pat⟩ | ⟨ok⟩
    · rw [loadUserSample_omn]
      simp [entriesFor, disposeExisting, hp0, hm0]
    · cases ok
      · rw [loadUserSample_midi_false]
        simp [entriesFor, disposeExisting, hp0, hm0]
      · rw [loadUserSample_midi_true]
        simp [entriesFor, disposeExisting, List.countP_cons, hp0, hm0]
    · cases ok
      · rw [loadUserSample_audio_false]
        simp [entriesFor, disposeExisting, hp0, hm0]
      · rw [loadUserSample_audio_true]
        simp [entriesFor, disposeExisting, List.countP_cons, hp0, hm0]
  · intro pl hpl
    have hmem : pl.token ∈ (disposeExisting st noteId).disposed := by
      simp only [disposeExisting]
      rw [hpl]
      exact List.mem_cons_self _ _
    rcases src with _ | ⟨ok, pat⟩ | ⟨ok⟩
    · rw [loadUserSample_omn]
      exact hmem
    · cases ok
      · rw [loadUserSample_midi_false]
        exact hmem
      · rw [loadUserSample_midi_true]
        exact hmem
    · cases ok
      · rw [loadUserSample_audio_false]
        exact hmem
      · rw [loadUserSample_audio_true]
        exact hmem

/-- Witness for C5: loading two audio assets for pad 40 into the empty
registry leaves one entry, one live player, and the first player disposed. -/
theorem loadUserSample_replaces_witness :
    entriesFor (loadUserSample Registry.empty 40 (SampleSource.audioFile true)) 40 ≤ 1 ∧
    livePlayersFor
        (loadUserSample (loadUserSample Registry.empty 40 (SampleSource.audioFile true)) 40
          (SampleSource.audioFile true)) 40 = 1 ∧
    Registry.empty.nextToken ∈
      (loadUserSample (loadUserSample Registry.empty 40 (SampleSource.audioFile true)) 40
        (SampleSource.audioFile true)).disposed := by
  have hw : RegistryWF Registry.empty := by
    refine ⟨?_, ?_, ?_, ?_⟩ <;> simp [Registry.empty]
  exact ⟨(loadUserSample_replaces Registry.empty 40 (SampleSource.audioFile true) hw).1,
    (loadUserSample_replaces Registry.empty 40 (SampleSource.audioFile true) hw).2.2.2.1,
    (loadUserSample_replaces Registry.empty 40 (SampleSource.audioFile true) hw).2.2.2.2⟩

/- ------------------------------------------------------------------ -/
/- The instrument dispatcher: triggerSound                             -/
/- ------------------------------------------------------------------ -/

/-- The sound-producing units of audio.ts after `initAudio`: the default-kit
sample players, the fallback synths (each routed through its family panner),
the per-pad custom players, and the polyphonic synth used for MIDI patterns. -/
inductive VoiceId where
  | kitSample (k : InstrumentType)
  | woodblock
  | tomSyn
  | crashSyn
  | splashSyn
  | chinaSyn
  | rideSyn
  | shakerSyn
  | congaSyn
  | customPlayer (noteId : Nat)
  | midiSynth
deriving DecidableEq

/-- One scheduled playback command issued by `triggerSound`: the voice it
resolves to, the gain-domain velocity, the explicit scheduling time (`none`
means "as soon as possible"), and the semitone pitch information (for sample
voices the playback rate is `2^(pitch/12)`; `none` means the voice's fixed
pitch). -/
structure AudioTrigger where
  voice : VoiceId
  velocity : ℚ
  time : Option ℚ
  pitch : Option Int
deriving DecidableEq

/-- The optional `SoundParams` argument of `triggerSound`. -/
structure SoundParams where
  pitch : Option Int
  volume : Option ℚ
  pan : Option ℚ
  triggerNote : Option Nat
  time : Option ℚ
deriving DecidableEq

/-- JS truthiness transposition, `params.pitch ? transpose(pitch) : base`:
a pitch of 0 is falsy and skips the transpose call, but transposing by 0 is
the identity, so the result is the base plus the pitch read as 0 when absent. -/
def transposeOpt (base : Int) (p : Option Int) : Int :=
  match p with
  | some z => if z = 0 then base else base + z
  | none => base

/-- `triggerSound` from audio.ts, in the initialized audio state (all synths
constructed and the seven default-kit samples loaded, so every `if (synth)` /
`defaultKit.has(...)`guard passes). `nowClock` stands for `Tone.now()`, used
as the base time for MIDI-pattern sub-events when no explicit time is given.
The returned list holds the playback commands the call schedules; an empty
list is a silent call. -/
def triggerSound (reg : Registry) (nowClock : ℚ) (type : InstrumentType)
    (velocity : ℚ) (p : SoundParams) : List AudioTrigger :=
  let vel := normVel velocity
  let volMult := p.volume.getD 1
  let effVel := max (vel * volMult) (1 / 1000)
  match type with
  | InstrumentType.custom =>
    match p.triggerNote with
    | some noteKey =>
      match lookupKey noteKey reg.midis with
      | some pat =>
        let now := p.time.getD nowClock
        pat.map fun n =>
          ⟨VoiceId.midiSynth, n.noteVel * vel, some (now + n.offset),
            some (transposeOpt n.pitchName p.pitch)⟩
      | none =>
        match lookupKey noteKey reg.players with
        | some pl =>
            if pl.loaded then [⟨VoiceId.customPlayer noteKey, effVel, p.time, p.pitch⟩]
            else []
        | none => []
    | none => []
  | InstrumentType.kick => [⟨VoiceId.kitSample InstrumentType.kick, effVel, p.time, p.pitch⟩]
  | InstrumentType.kick_808 =>
      [⟨VoiceId.kitSample InstrumentType.kick_808, effVel, p.time, p.pitch⟩]
  | InstrumentType.snare => [⟨VoiceId.kitSample InstrumentType.snare, effVel, p.time, p.pitch⟩]
  | InstrumentType.snare_808 =>
      [⟨VoiceId.kitSample InstrumentType.snare_808, effVel, p.time, p.pitch⟩]
  | InstrumentType.rimshot => [⟨VoiceId.woodblock, effVel, p.time, none⟩]
  | InstrumentType.clap => [⟨VoiceId.kitSample InstrumentType.clap, effVel, p.time, p.pitch⟩]
  | InstrumentType.hihat_closed =>
      [⟨VoiceId.kitSample InstrumentType.hihat_closed, effVel, p.time, p.pitch⟩]
  | InstrumentType.hihat_open =>
      [⟨VoiceId.kitSample InstrumentType.hihat_open, effVel, p.time, p.pitch⟩]
  | InstrumentType.tom => [⟨VoiceId.tomSyn, effVel, p.time, some (transposeOpt 0 p.pitch)⟩]
  | InstrumentType.crash => [⟨VoiceId.crashSyn, effVel, p.time, none⟩]
  | InstrumentType.splash => [⟨VoiceId.splashSyn, effVel, p.time, none⟩]
  | InstrumentType.china => [⟨VoiceId.chinaSyn, effVel, p.time, none⟩]
  | InstrumentType.ride => [⟨VoiceId.rideSyn, effVel * (8 / 10), p.time, none⟩]
  | InstrumentType.cowbell =>
      [⟨VoiceId.woodblock, effVel, p.time, some (transposeOpt 0 p.pitch)⟩]
  | InstrumentType.shaker => [⟨VoiceId.shakerSyn, effVel * (1 / 2), p.time, none⟩]
  | InstrumentType.tambourine => [⟨VoiceId.shakerSyn, effVel * (7 / 10), p.time, none⟩]
  | InstrumentType.conga_high => [⟨VoiceId.congaSyn, effVel, p.time, none⟩]
  | InstrumentType.conga_low => [⟨VoiceId.congaSyn, effVel, p.time, none⟩]

/-- The live-input dispatch step of the `addListener` callback in DrumKit.tsx:
look the note up in the mapping table; when mapped, trigger the mapped
instrument with the mapping's pitch/volume/pan and the note as trigger key;
when unmapped, fall back to `triggerSound('cowbell', velocity, {pitch: 12})`. -/
def handleMidiNote (maps : Mappings) (reg : Registry) (nowClock : ℚ) (note : Nat)
    (velocity : ℚ) : List AudioTrigger :=
  match maps note with
  | some m =>
      triggerSound reg nowClock m.instrument velocity
        ⟨some m.pitch, m.volume, m.pan, some note, none⟩
  | none => triggerSound reg nowClock InstrumentType.cowbell velocity
      ⟨some 12, none, none, none, none⟩

/- ------------------------------------------------------------------ -/
/- C8: fallback safety                                                 -/
/- ------------------------------------------------------------------ -/

/-- A table mapping pad 36 to a custom sample, with no other mappings. -/
def mapsCustom : Mappings :=
  fun n => if n = 36 then some ⟨InstrumentType.custom, 0, none, none⟩ else none

/-- C8 counterexample: pad 36 is mapped to `custom` but the registry has no
entry for it; triggering it schedules NO playback command at all - the press
is silent, not an audible fallback trigger. -/
theorem handleMidiNote_fallback_counterexample :
    mapsCustom 36 = some ⟨InstrumentType.custom, 0, none, none⟩ ∧
    handleMidiNote mapsCustom Registry.empty 0 36 (8 / 10) = [] := by
  constructor
  · rfl
  · rfl

/-- C8 amended: triggering a pad id never throws (the dispatch function is
total); a pad with no mapping at all produces the fixed audible fallback -
exactly one trigger on the cowbell (woodblock) voice at pitch offset +12 -
but a pad whose mapping is `custom` with no registry entry for that pad
produces no trigger: a silent no-op rather than an audible fallback. -/
theorem handleMidiNote_fallback (maps : Mappings) (reg : Registry) (nowClock : ℚ)
    (note : Nat) (v : ℚ) :
    (maps note = none →
      ∃ trig, handleMidiNote maps reg nowClock note v = [trig] ∧
        trig.voice = VoiceId.woodblock ∧ trig.pitch = some 12) ∧
    (∀ m, maps note = some m → m.instrument = InstrumentType.custom →
      lookupKey note reg.midis = none → lookupKey note reg.players = none →
      handleMidiNote maps reg nowClock note v = []) := by
  constructor
  · intro hnone
    refine ⟨⟨VoiceId.woodblock, max (normVel v * 1) (1 / 1000), none,
      some (transposeOpt 0 (some 12))⟩, ?_, rfl, rfl⟩
    simp [handleMidiNote, hnone, triggerSound]
  · intro m hm hcustom hmidi hplayer
    simp [handleMidiNote, hm, hcustom, triggerSound, hmidi, hplayer]

/-- Witness for C8 amended: pad 40 is unmapped and produces the cowbell
fallback; pad 36 is custom-mapped with an empty registry and is silent. -/
theorem handleMidiNote_fallback_witness :
    (∃ trig, handleMidiNote mapsCustom Registry.empty 0 40 (8 / 10) = [trig] ∧
      trig.voice = VoiceId.woodblock ∧ trig.pitch = some 12) ∧
    handleMidiNote mapsCustom Registry.empty 0 36 (8 / 10) = [] :=
  ⟨(handleMidiNote_fallback mapsCustom Registry.empty 0 40 (8 / 10)).1 (by simp [mapsCustom]),
   (handleMidiNote_fallback mapsCustom Registry.empty 0 36 (8 / 10)).2
     ⟨InstrumentType.custom, 0, none, none⟩ (by simp [mapsCustom]) rfl rfl rfl⟩

/- ------------------------------------------------------------------ -/
/- C3: step-sequencer tick                                             -/
/- ------------------------------------------------------------------ -/

/-- A sequencer row as the tick callback consumes it: instrument and optional
pitch offset (the `id`, `name` and `key` fields are display/pan bookkeeping
the tick never reads). -/
structure SequenceRow where
  instrument : InstrumentType
  pitch : Option Int
deriving DecidableEq

/-- One `triggerSound` call issued by the tick callback: instrument, velocity,
and the `SoundParams` fields it passes (pitch, and the scheduling time, which
is `none` when the params carry no `time` entry). -/
structure SeqDispatch where
  instrument : InstrumentType
  velocity : ℚ
  pitch : Option Int
  time : Option ℚ
deriving DecidableEq

/-- `seqState.grid[rowIndex][step]` with JS out-of-bounds indexing reading as
undefined, which is falsy. -/
def cellAt (grid : List (List Bool)) (rowIndex step : Nat) : Bool :=
  (grid.getD rowIndex []).getD step false

/-- The `rows.forEach((row, rowIndex) => ...)` body of the `Tone.Sequence`
callback in Sequencer.tsx, from row index `i` on: for every row whose grid
cell at the current step is active, one call
`triggerSound(row.instrument, 0.8, { pitch: row.pitch })`. -/
def sequencerTickAux (grid : List (List Bool)) (step : Nat) :
    List SequenceRow → Nat → List SeqDispatch
  | [], _ => []
  | r :: rest, i =>
      (if cellAt grid i step then [⟨r.instrument, 8 / 10, r.pitch, none⟩] else []) ++
        sequencerTickAux grid step rest (i + 1)

/-- The whole `Tone.Sequence` callback of Sequencer.tsx at one tick. It
receives the tick time as `_time` but does not pass it on: the `triggerSound`
calls carry no `time` entry in their params. -/
def sequencerTick (_time : ℚ) (rows : List SequenceRow) (grid : List (List Bool))
    (step : Nat) : List SeqDispatch :=
  sequencerTickAux grid step rows 0

/-- A single kick row, as in the spec's grid-fidelity example. -/
def rowsSeq : List SequenceRow := [⟨InstrumentType.kick, none⟩]

/-- A 1-row 16-step grid with the row active at steps 0, 4, 8 and 12. -/
def gridSeq : List (List Bool) :=
  [[true, false, false, false, true, false, false, false,
    true, false, false, false, true, false, false, false]]

/-- C3 counterexample: at a tick whose time is 5, step 0 of the example grid
produces exactly one dispatcher call for the active row, but that call carries
NO scheduling time (`triggerSound` is called without a `time` param), so its
scheduledTime is not the tick time 5. -/
theorem sequencerTick_counterexample :
    sequencerTick 5 rowsSeq gridSeq 0 = [⟨InstrumentType.kick, 8 / 10, none, none⟩] ∧
    (⟨InstrumentType.kick, 8 / 10, none, none⟩ : SeqDispatch).time ≠ some 5 := by
  constructor
  · rfl
  · simp

theorem sequencerTickAux_enumFrom (grid : List (List Bool)) (step : Nat) :
    ∀ (rows : List SequenceRow) (i : Nat),
      sequencerTickAux grid step rows i =
        ((rows.enumFrom i).filter (fun p => cellAt grid p.1 step)).map
          (fun p => ⟨p.2.instrument, 8 / 10, p.2.pitch, none⟩)
  | [], i => by simp [sequencerTickAux]
  | r :: rest, i => by
      rw [sequencerTickAux, sequencerTickAux_enumFrom grid step rest (i + 1)]
      by_cases hc : cellAt grid i step
      · simp [List.enumFrom, hc]
      · simp [List.enumFrom, hc]

/-- C3 amended: on a tick at step `s`, the dispatcher is called exactly once
for each row whose grid cell at `s` is active - with that row's instrument and
pitch, in row order - and not at all for rows whose cell is inactive; the
calls carry no explicit scheduledTime (the tick time argument is ignored), so
the sound is dispatched as soon as possible rather than at the tick time. -/
theorem sequencerTick_grid_fidelity (t : ℚ) (rows : List SequenceRow)
    (grid : List (List Bool)) (step : Nat) :
    sequencerTick t rows grid step =
      (rows.enum.filter (fun p => cellAt grid p.1 step)).map
        (fun p => ⟨p.2.instrument, 8 / 10, p.2.pitch, none⟩) := by
  unfold sequencerTick
  rw [sequencerTickAux_enumFrom]
  rfl

/- ------------------------------------------------------------------ -/
/- Recorder: toggleRecording and the recording tap                     -/
/- ------------------------------------------------------------------ -/

/-- A decoded input event as delivered by the MIDI layer: note, velocity, and
the absolute wall-clock arrival time (`Date.now()`, ms). -/
structure InputEvent where
  note : Nat
  velocity : ℚ
  time : Nat
deriving DecidableEq

/-- A captured `MidiEvent` (DrumKit.tsx): note, velocity, and timestamp in ms
relative to the recording start (the `id` string is only a React list key). -/
structure MidiEvent where
  note : Nat
  velocity : ℚ
  timestamp : Nat
deriving DecidableEq

/-- A sealed `Recording` (take): id (the `Date.now()` at sealing), the
captured events, and the duration in ms (the display `name` is UI-only). -/
structure Recording where
  id : Nat
  events : List MidiEvent
  duration : Nat
deriving DecidableEq

/-- Recorder state of DrumKit.tsx: the `isRecording` flag, the working buffer
`currentRecordingRef`, the start time `recordStartTimeRef` (ms), and the take
list `recordings`, most recent first. -/
structure RecState where
  isRecording : Bool
  buffer : List MidiEvent
  startTime : Nat
  recordings : List Recording
deriving DecidableEq

/-- `toggleRecording` from DrumKit.tsx, at wall-clock time `now`: when idle it
clears the buffer, stamps the start time and enters recording; when recording
it returns to idle and, if the buffer is non-empty, prepends a new take with
the buffered events and duration `now - startTime`. -/
def toggleRecording (s : RecState) (now : Nat) : RecState :=
  if s.isRecording = false then
    ⟨true, [], now, s.recordings⟩
  else if s.buffer.length > 0 then
    ⟨false, s.buffer, s.startTime, ⟨now, s.buffer, now - s.startTime⟩ :: s.recordings⟩
  else
    ⟨false, s.buffer, s.startTime, s.recordings⟩

/-- The recording tap of the `addListener` callback in DrumKit.tsx: while
recording, the incoming event is appended to the buffer with its timestamp
made relative to the recording start; otherwise the recorder state is
untouched. -/
def feedInput (s : RecState) (e : InputEvent) : RecState :=
  if s.isRecording then
    ⟨true, s.buffer ++ [⟨e.note, e.velocity, e.time - s.startTime⟩], s.startTime, s.recordings⟩
  else s

/-- C6: stopping a recording returns the recorder to idle; if at least one
event was captured it seals a new take whose events are exactly the captured
events and whose duration is the stop time minus the start time, prepending
it to the take list; if no events were captured no take is added. -/
theorem toggleRecording_stop (s : RecState) (now : Nat) (h : s.isRecording = true) :
    (toggleRecording s now).isRecording = false ∧
    (s.buffer ≠ [] →
      (toggleRecording s now).recordings =
        ⟨now, s.buffer, now - s.startTime⟩ :: s.recordings) ∧
    (s.buffer = [] → (toggleRecording s now).recordings = s.recordings) := by
  refine ⟨?_, ?_, ?_⟩
  · rcases hb : s.buffer with _ | ⟨e, es⟩ <;> simp [toggleRecording, h, hb]
  · intro hne
    rcases hb : s.buffer with _ | ⟨e, es⟩
    · exact absurd hb hne
    · simp [toggleRecording, h, hb]
  · intro hemp
    simp [toggleRecording, h, hemp]

/-- A recorder mid-recording: one captured event, started at 1000 ms. -/
def recStateEx : RecState := ⟨true, [⟨60, 8 / 10, 0⟩], 1000, []⟩

/-- Witness for C6 at a concrete recorder state: stopping at 1400 ms seals a
take with the captured event and duration 400 ms. -/
theorem toggleRecording_stop_witness :
    (toggleRecording recStateEx 1400).isRecording = false ∧
    (toggleRecording recStateEx 1400).recordings =
      [⟨1400, [⟨60, 8 / 10, 0⟩], 400⟩] :=
  ⟨(toggleRecording_stop recStateEx 1400 rfl).1, by
    have h2 := (toggleRecording_stop recStateEx 1400 rfl).2.1 (by simp [recStateEx])
    simpa [recStateEx] using h2⟩

/- ------------------------------------------------------------------ -/
/- C1: record / playback round trip                                    -/
/- ------------------------------------------------------------------ -/

/-- One dispatcher call issued during take playback: the `triggerSound`
invocation with the mapped instrument, the event's note (trigger key) and
velocity, the mapping's pitch/volume/pan, and the absolute scheduled time in
seconds. -/
structure PlayCall where
  instrument : InstrumentType
  note : Nat
  velocity : ℚ
  pitch : Int
  volume : Option ℚ
  pan : Option ℚ
  time : ℚ
deriving DecidableEq

/-- The dispatcher calls issued by the `Tone.Part` callback of
`playBackRecording` for a take whose part is started at `anchor` seconds
(`anchor = Tone.Transport.seconds + 0.1` at play time), each event firing at
`anchor + timestamp/1000`: an event whose note has a mapping becomes one
`triggerSound` call; an event whose note is unmapped is skipped, because the
callback body is `if (mapping) { ... }` with no else branch. -/
def playCalls (maps : Mappings) (anchor : ℚ) (rec : Recording) : List PlayCall :=
  rec.events.filterMap fun e =>
    (maps e.note).map fun m =>
      ⟨m.instrument, e.note, e.velocity, m.pitch, m.volume, m.pan,
        anchor + (e.timestamp : ℚ) / 1000⟩

/-- The take of the spec's round-trip example: events (60, 0.8) at t=0 ms and
(62, 0.5) at t=250 ms, duration 1000 ms. -/
def takeEx : Recording := ⟨1, [⟨60, 8 / 10, 0⟩, ⟨62, 1 / 2, 250⟩], 1000⟩

/-- A table mapping note 60 (only) to the kick; note 62 is unmapped. -/
def mapsKick : Mappings :=
  fun n => if n = 60 then some ⟨InstrumentType.kick, 0, none, none⟩ else none

/-- C1 counterexample: playing the spec's example take under a mapping table
that leaves note 62 unmapped dispatches only the note-60 event; the dispatched
(note, velocity) pairs are NOT exactly the recorded pairs, because an unmapped
event is silently skipped by the playback callback. -/
theorem playBackRecording_roundTrip_counterexample :
    (playCalls mapsKick (1 / 10) takeEx).map (fun c => (c.note, c.velocity)) =
      [(60, 8 / 10)] ∧
    takeEx.events.map (fun e => (e.note, e.velocity)) = [(60, 8 / 10), (62, 1 / 2)] ∧
    (playCalls mapsKick (1 / 10) takeEx).map (fun c => (c.note, c.velocity)) ≠
      takeEx.events.map (fun e => (e.note, e.velocity)) := by
  have h1 : (playCalls mapsKick (1 / 10) takeEx).map (fun c => (c.note, c.velocity)) =
      [(60, 8 / 10)] := rfl
  have h2 : takeEx.events.map (fun e => (e.note, e.velocity)) =
      [(60, 8 / 10), (62, 1 / 2)] := rfl
  refine ⟨h1, h2, ?_⟩
  rw [h1, h2]
  intro h
  have hlen := congrArg List.length h
  simp at hlen

theorem feedInput_foldl (inputs : List InputEvent) (buf : List MidiEvent) (t0 : Nat)
    (recs : List Recording) :
    List.foldl feedInput ⟨true, buf, t0, recs⟩ inputs =
      ⟨true, buf ++ inputs.map (fun e => ⟨e.note, e.velocity, e.time - t0⟩), t0, recs⟩ := by
  induction inputs generalizing buf with
  | nil => simp
  | cons e es ih =>
      rw [List.foldl_cons]
      rw [show feedInput ⟨true, buf, t0, recs⟩ e =
          ⟨true, buf ++ [⟨e.note, e.velocity, e.time - t0⟩], t0, recs⟩ from rfl]
      rw [ih]
      simp

theorem playCalls_all_mapped (maps : Mappings) (anchor : ℚ) (idv dur : Nat) :
    ∀ l : List MidiEvent, (∀ e ∈ l, (maps e.note).isSome) →
      (playCalls maps anchor ⟨idv, l, dur⟩).map (fun c => (c.note, c.velocity)) =
          l.map (fun e => (e.note, e.velocity)) ∧
        (playCalls maps anchor ⟨idv, l, dur⟩).map PlayCall.time =
          l.map (fun e => anchor + (e.timestamp : ℚ) / 1000)
  | [], _ => by simp [playCalls]
  | e :: es, h => by
      obtain ⟨m, hm⟩ := Option.isSome_iff_exists.mp (h e (List.mem_cons_self e es))
      have ih := playCalls_all_mapped maps anchor idv dur es
        (fun x hx => h x (List.mem_cons_of_mem _ hx))
      constructor
      · simp only [playCalls, List.filterMap_cons] at ih ⊢
        rw [hm]
        simp [ih.1]
      · simp only [playCalls, List.filterMap_cons] at ih ⊢
        rw [hm]
        simp [ih.2]

/-- C1 amended: recording a nonempty input sequence between wall-clock times
`t0` and `t1` and stopping seals a take; PROVIDED every recorded note has a
mapping at playback time, playing that take issues dispatcher calls for
exactly the recorded (note, velocity) pairs, in recorded order, each scheduled
at `anchor + timestamp/1000` seconds, where the timestamp is the event's
offset from the recording start in ms and `anchor` is the transport clock at
play time plus the fixed 0.1 s lead. -/
theorem playBackRecording_roundTrip (s : RecState) (t0 t1 : Nat)
    (inputs : List InputEvent) (maps : Mappings) (transportSeconds : ℚ)
    (hidle : s.isRecording = false) (hne : inputs ≠ [])
    (hmapped : ∀ e ∈ inputs, (maps e.note).isSome) :
    ∃ take,
      (toggleRecording (List.foldl feedInput (toggleRecording s t0) inputs) t1).recordings.head?
          = some take ∧
      take.events = inputs.map (fun e => ⟨e.note, e.velocity, e.time - t0⟩) ∧
      take.duration = t1 - t0 ∧
      (playCalls maps (transportSeconds + 1 / 10) take).map (fun c => (c.note, c.velocity)) =
        inputs.map (fun e => (e.note, e.velocity)) ∧
      (playCalls maps (transportSeconds + 1 / 10) take).map PlayCall.time =
        inputs.map (fun e => (transportSeconds + 1 / 10) + ((e.time - t0 : Nat) : ℚ) / 1000) := by
  have hstart : toggleRecording s t0 = ⟨true, [], t0, s.recordings⟩ := by
    simp [toggleRecording, hidle]
  rw [hstart, feedInput_foldl]
  have hlen : 0 < (inputs.map (fun e =>
      (⟨e.note, e.velocity, e.time - t0⟩ : MidiEvent))).length := by
    rcases inputs with _ | ⟨e, es⟩
    · exact absurd rfl hne
    · simp
  refine ⟨⟨t1, inputs.map (fun e => ⟨e.note, e.velocity, e.time - t0⟩), t1 - t0⟩, ?_, rfl,
    rfl, ?_, ?_⟩
  · simp only [toggleRecording, List.nil_append]
    rw [if_neg (by simp), if_pos (by simpa using hlen)]
    rfl
  · have hm : ∀ e ∈ inputs.map (fun e =>
        (⟨e.note, e.velocity, e.time - t0⟩ : MidiEvent)), (maps e.note).isSome := by
      intro ev hev
      obtain ⟨e, he, heq⟩ := List.mem_map.mp hev
      rw [← heq]
      exact hmapped e he
    rw [(playCalls_all_mapped maps (transportSeconds + 1 / 10) t1 (t1 - t0) _ hm).1]
    rw [List.map_map]
    rfl
  · have hm : ∀ e ∈ inputs.map (fun e =>
        (⟨e.note, e.velocity, e.time - t0⟩ : MidiEvent)), (maps e.note).isSome := by
      intro ev hev
      obtain ⟨e, he, heq⟩ := List.mem_map.mp hev
      rw [← heq]
      exact hmapped e he
    rw [(playCalls_all_mapped maps (transportSeconds + 1 / 10) t1 (t1 - t0) _ hm).2]
    rw [List.map_map]
    rfl

/-- An idle recorder with no takes. -/
def recIdle : RecState := ⟨false, [], 0, []⟩

/-- The spec's example inputs, arriving at 1000 ms and 1250 ms. -/
def inputsEx : List InputEvent := [⟨60, 8 / 10, 1000⟩, ⟨62, 1 / 2, 1250⟩]

/-- A table mapping note 60 to the kick and note 62 to the snare. -/
def mapsRT : Mappings :=
  fun n =>
    if n = 60 then some ⟨InstrumentType.kick, 0, none, none⟩
    else if n = 62 then some ⟨InstrumentType.snare, 0, none, none⟩
    else none

/-- Witness for C1 amended, at the spec's example: record (60, 0.8) at t=0 and
(62, 0.5) at t=250 relative to a start at 1000 ms, stop at 2000 ms, play with
both notes mapped and the transport at 0 s. -/
theorem playBackRecording_roundTrip_witness :
    inputsEx ≠ [] ∧
    ∃ take,
      (toggleRecording (List.foldl feedInput (toggleRecording recIdle 1000) inputsEx)
            2000).recordings.head? = some take ∧
      take.events = inputsEx.map (fun e => ⟨e.note, e.velocity, e.time - 1000⟩) ∧
      take.duration = 2000 - 1000 ∧
      (playCalls mapsRT ((0:ℚ) + 1 / 10) take).map (fun c => (c.note, c.velocity)) =
        inputsEx.map (fun e => (e.note, e.velocity)) ∧
      (playCalls mapsRT ((0:ℚ) + 1 / 10) take).map PlayCall.time =
        inputsEx.map (fun e => ((0:ℚ) + 1 / 10) + ((e.time - 1000 : Nat) : ℚ) / 1000) :=
  ⟨by simp [inputsEx],
   playBackRecording_roundTrip recIdle 1000 2000 inputsEx mapsRT 0 rfl
     (by simp [inputsEx]) (by decide)⟩

/- ------------------------------------------------------------------ -/
/- C2, C7: playback scheduler (activeRecordingLoops)                   -/
/- ------------------------------------------------------------------ -/

/-- A cleanup callback registered with `Tone.Transport.scheduleOnce`: fires at
`time` (transport seconds) and disposes the part `partToken` registered for
take `takeId` if it is still current. -/
structure CleanupCb where
  time : ℚ
  takeId : Nat
  partToken : Nat
deriving DecidableEq

/-- Playback-scheduler state of DrumKit.tsx: the `activeRecordingLoops` map
(take id to the live `Tone.Part`, identified here by an allocation token), the
disposed parts, the cleanup callbacks registered so far, a fresh-part counter,
and the transport clock reading `Tone.Transport.seconds` at call time. -/
structure PlayerState where
  active : List (Nat × Nat)
  disposedParts : List Nat
  scheduled : List CleanupCb
  nextPart : Nat
  transportSeconds : ℚ
deriving DecidableEq

/-- The playback anchor `startOffset = Tone.Transport.seconds + 0.1` (current
clock plus the fixed lead that keeps the first event from being missed). -/
def anchorOf (s : PlayerState) : ℚ := s.transportSeconds + 1 / 10

/-- The state effect of `playBackRecording(rec)` in DrumKit.tsx: if a part for
`rec.id` is already active, dispose and remove it and return - play is a
toggle; otherwise build a part from the take's events, start it at the
anchor, register it under `rec.id`, and register one cleanup callback at
`anchor + duration/1000` carrying this part's identity. -/
def playBackRecording (s : PlayerState) (rec : Recording) : PlayerState :=
  match lookupKey rec.id s.active with
  | some tok =>
      ⟨removeKey rec.id s.active, tok :: s.disposedParts, s.scheduled, s.nextPart,
        s.transportSeconds⟩
  | none =>
      ⟨(rec.id, s.nextPart) :: s.active, s.disposedParts,
        s.scheduled ++ [⟨anchorOf s + (rec.duration : ℚ) / 1000, rec.id, s.nextPart⟩],
        s.nextPart + 1, s.transportSeconds⟩

/-- The body of the scheduled cleanup callback in `playBackRecording`: dispose
the part and delete its entry only if the part registered for the take id is
still the very part this callback was created for. -/
def runCleanup (s : PlayerState) (cb : CleanupCb) : PlayerState :=
  if lookupKey cb.takeId s.active = some cb.partToken then
    ⟨removeKey cb.takeId s.active, cb.partToken :: s.disposedParts, s.scheduled, s.nextPart,
      s.transportSeconds⟩
  else s

theorem playBackRecording_of_some (s : PlayerState) (rec : Recording) (tok : Nat)
    (h : lookupKey rec.id s.active = some tok) :
    playBackRecording s rec =
      ⟨removeKey rec.id s.active, tok :: s.disposedParts, s.scheduled, s.nextPart,
        s.transportSeconds⟩ := by
  simp only [playBackRecording, h]

theorem playBackRecording_of_none (s : PlayerState) (rec : Recording)
    (h : lookupKey rec.id s.active = none) :
    playBackRecording s rec =
      ⟨(rec.id, s.nextPart) :: s.active, s.disposedParts,
        s.scheduled ++ [⟨anchorOf s + (rec.duration : ℚ) / 1000, rec.id, s.nextPart⟩],
        s.nextPart + 1, s.transportSeconds⟩ := by
  simp only [playBackRecording, h]

theorem not_mem_map_fst_of_lookupKey_none {β : Type} (k : Nat) (l : List (Nat × β))
    (h : lookupKey k l = none) : k ∉ l.map Prod.fst := by
  intro hk
  obtain ⟨p, hp, hpk⟩ := List.mem_map.mp hk
  exact (lookupKey_eq_none_iff k l).mp h p hp hpk

/-- C2: play is a toggle maintaining at most one active timeline per take id.
When a part for `rec.id` is already active, `playBackRecording` disposes and
removes it and starts nothing new (no new part, no new cleanup); hence, from
a state with no timeline for the id, two consecutive calls leave none and a
third starts one again; and the active map's key list stays duplicate-free,
so no two timelines for the same take id ever coexist. -/
theorem playBackRecording_toggle (s : PlayerState) (rec : Recording)
    (hkeys : (s.active.map Prod.fst).Nodup) :
    (∀ tok, lookupKey rec.id s.active = some tok →
      lookupKey rec.id (playBackRecording s rec).active = none ∧
      tok ∈ (playBackRecording s rec).disposedParts ∧
      (playBackRecording s rec).nextPart = s.nextPart ∧
      (playBackRecording s rec).scheduled = s.scheduled) ∧
    (lookupKey rec.id s.active = none →
      lookupKey rec.id (playBackRecording (playBackRecording s rec) rec).active = none ∧
      (lookupKey rec.id
          (playBackRecording (playBackRecording (playBackRecording s rec) rec) rec).active).isSome) ∧
    ((playBackRecording s rec).active.map Prod.fst).Nodup := by
  refine ⟨?_, ?_, ?_⟩
  · intro tok htok
    rw [playBackRecording_of_some s rec tok htok]
    exact ⟨lookupKey_removeKey_self _ _, List.mem_cons_self _ _, rfl, rfl⟩
  · intro hnone
    have ha1 := playBackRecording_of_none s rec hnone
    have hl1 : lookupKey rec.id (playBackRecording s rec).active = some s.nextPart := by
      rw [ha1]
      exact lookupKey_cons_self _ _ _
    have ha2 := playBackRecording_of_some _ rec _ hl1
    have hl2 : lookupKey rec.id
        (playBackRecording (playBackRecording s rec) rec).active = none := by
      rw [ha2]
      exact lookupKey_removeKey_self _ _
    have ha3 := playBackRecording_of_none _ rec hl2
    refine ⟨hl2, ?_⟩
    rw [ha3]
    rw [lookupKey_cons_self]
    rfl
  · rcases hlk : lookupKey rec.id s.active with _ | tok
    · rw [playBackRecording_of_none s rec hlk]
      simp only [List.map_cons]
      exact List.nodup_cons.mpr ⟨not_mem_map_fst_of_lookupKey_none _ _ hlk, hkeys⟩
    · rw [playBackRecording_of_some s rec tok hlk]
      exact List.Nodup.sublist (removeKey_map_fst_sublist _ _) hkeys

/-- The playback scheduler before anything is played. -/
def playerIdle : PlayerState := ⟨[], [], [], 0, 0⟩

/-- A concrete one-event take with id 7 and duration 500 ms. -/
def takeW : Recording := ⟨7, [⟨60, 8 / 10, 0⟩], 500⟩

/-- Witness for C2 at a concrete state: from the idle scheduler, two plays of
take 7 leave no timeline for id 7, a third play activates one, and the active
key list stays duplicate-free. -/
theorem playBackRecording_toggle_witness :
    lookupKey takeW.id
        (playBackRecording (playBackRecording playerIdle takeW) takeW).active = none ∧
    (lookupKey takeW.id
        (playBackRecording (playBackRecording (playBackRecording playerIdle takeW) takeW)
          takeW).active).isSome ∧
    ((playBackRecording playerIdle takeW).active.map Prod.fst).Nodup :=
  ⟨((playBackRecording_toggle playerIdle takeW List.nodup_nil).2.1 rfl).1,
   ((playBackRecording_toggle playerIdle takeW List.nodup_nil).2.1 rfl).2,
   (playBackRecording_toggle playerIdle takeW List.nodup_nil).2.2⟩

/-- C7: starting playback registers exactly one cleanup callback, at
`anchor + duration/1000` transport seconds, tagged with the very part this
call created; the callback body disposes a part and removes its entry only
when the part registered for the take id is still that same part, and when
the registered part differs (playback was restarted in the interim) it leaves
the state - in particular the newer timeline - entirely untouched. -/
theorem playBackRecording_cleanup_guard (s : PlayerState) (rec : Recording)
    (hfresh : lookupKey rec.id s.active = none) :
    (playBackRecording s rec).scheduled =
      s.scheduled ++ [⟨anchorOf s + (rec.duration : ℚ) / 1000, rec.id, s.nextPart⟩] ∧
    (∀ s' : PlayerState, ∀ cb : CleanupCb,
      lookupKey cb.takeId s'.active ≠ some cb.partToken → runCleanup s' cb = s') ∧
    (∀ s' : PlayerState, ∀ cb : CleanupCb,
      lookupKey cb.takeId s'.active = some cb.partToken →
        (runCleanup s' cb).active = removeKey cb.takeId s'.active ∧
        cb.partToken ∈ (runCleanup s' cb).disposedParts) := by
  refine ⟨?_, ?_, ?_⟩
  · rw [playBackRecording_of_none s rec hfresh]
  · intro s' cb hne
    simp [runCleanup, hne]
  · intro s' cb heq
    have hr : runCleanup s' cb =
        ⟨removeKey cb.takeId s'.active, cb.partToken :: s'.disposedParts, s'.scheduled,
          s'.nextPart, s'.transportSeconds⟩ := by
      simp only [runCleanup, if_pos heq]
    rw [hr]
    exact ⟨rfl, List.mem_cons_self _ _⟩

/-- A scheduler state in which take 7's registered part is the (newer) part 1. -/
def stalePlayer : PlayerState := ⟨[(7, 1)], [], [], 2, 0⟩

/-- Witness for C7: playing take 7 from idle registers exactly one cleanup at
the anchor plus 0.5 s; a cleanup carrying the stale part 99 leaves a state
whose registered part is 1 untouched; a cleanup carrying the current part 1
disposes it and removes the entry. -/
theorem playBackRecording_cleanup_guard_witness :
    (playBackRecording playerIdle takeW).scheduled =
      playerIdle.scheduled ++
        [⟨anchorOf playerIdle + ((takeW.duration : Nat) : ℚ) / 1000, takeW.id,
          playerIdle.nextPart⟩] ∧
    runCleanup stalePlayer ⟨0, 7, 99⟩ = stalePlayer ∧
    (runCleanup stalePlayer ⟨0, 7, 1⟩).active = removeKey 7 stalePlayer.active ∧
    (1 : Nat) ∈ (runCleanup stalePlayer ⟨0, 7, 1⟩).disposedParts :=
  ⟨(playBackRecording_cleanup_guard playerIdle takeW rfl).1,
   (playBackRecording_cleanup_guard playerIdle takeW rfl).2.1 stalePlayer ⟨0, 7, 99⟩
     (by decide),
   ((playBackRecording_cleanup_guard playerIdle takeW rfl).2.2 stalePlayer ⟨0, 7, 1⟩
     (by decide)).1,
   ((playBackRecording_cleanup_guard playerIdle takeW rfl).2.2 stalePlayer ⟨0, 7, 1⟩
     (by decide)).2⟩

end DrumMidi
